import Mathlib

/-!
Verification of the study-session engine of the yt-flashcards bot
(`src/main.py`) against its natural-language specification.

The Python source is shallowly embedded: pure helpers (`parse_duration_str`,
`fmt_time`, `slice_transcript_text`) become Lean functions over `List Char` /
`String`; the stateful tick handler (`send_next_card`) becomes an explicit
state-passing function on a `Session` record that returns the mutated state
together with the emitted messages; machine integers are `Nat`/`Int`.

Character classes (`\d`, `\s`, `str.lower`, `str.strip`, `str.isdigit`) are
modelled over their ASCII meaning; Python's versions are Unicode-aware but
coincide with the ASCII meaning on every input considered here.
-/

/-- ASCII decimal digit character for a digit value `d < 10` (code 48 + d). -/
def digitChar (d : Nat) : Char := Char.ofNat (48 + d)

/-- ASCII digit test, the model of the regex class `\d` and of `str.isdigit`
on single characters. -/
def isDigitChar (c : Char) : Bool := decide (48 ≤ c.toNat ∧ c.toNat ≤ 57)

/-- ASCII whitespace test, the model of the regex class `\s` and of the
characters removed by `str.strip`: space, tab, newline, carriage return,
vertical tab, form feed. -/
def isSpaceChar (c : Char) : Bool :=
  decide (c.toNat = 32 ∨ c.toNat = 9 ∨ c.toNat = 10 ∨ c.toNat = 13 ∨
          c.toNat = 11 ∨ c.toNat = 12)

/-- Model of `str.lower` on one character (ASCII range). -/
def pyLowerChar (c : Char) : Char :=
  if 65 ≤ c.toNat ∧ c.toNat ≤ 90 then Char.ofNat (c.toNat + 32) else c

/-- Model of `str.lower`. -/
def pyLower (l : List Char) : List Char := l.map pyLowerChar

/-- Model of `str.strip`: drop whitespace from both ends. -/
def pyStrip (l : List Char) : List Char :=
  ((l.dropWhile isSpaceChar).reverse.dropWhile isSpaceChar).reverse

/-- Model of `str.strip` at `String` level (used for transcript fragments). -/
def pyStripStr (s : String) : String := String.mk (pyStrip s.data)

/-- Value of a string of decimal digits, the model of Python `int(s)` on an
all-digit string. -/
def digitsToNat (l : List Char) : Nat :=
  l.foldl (fun acc c => acc * 10 + (c.toNat - 48)) 0

/-- Prepend a character to the first part of a split result. -/
def consHead (c : Char) : List (List Char) → List (List Char)
  | [] => [[c]]
  | p :: ps => (c :: p) :: ps

/-- Split a character list on `':'`, the model of `s.split(":")`. -/
def splitOnColon : List Char → List (List Char)
  | [] => [[]]
  | c :: t =>
    if c = ':' then [] :: splitOnColon t else consHead c (splitOnColon t)

/-- A colon-separated field as accepted by the regexes
`^\d{1,2}:\d{1,2}:\d{1,2}$` and `^\d{1,2}:\d{1,2}$` in
`parse_duration_str`: one or two characters, all digits. -/
def fieldOk (p : List Char) : Bool :=
  !p.isEmpty && decide (p.length ≤ 2) && p.all isDigitChar

/-- The colon-separated branch of `parse_duration_str` (main.py lines
201-207): `H:MM:SS` (1-2 digits per field) gives `h*3600 + m*60 + s`,
`M:SS` gives `m*60 + s`.  Matching the anchored regexes is equivalent to
`split(":")` producing exactly 3 (resp. 2) parts each of 1-2 digits. -/
def colonForm (l : List Char) : Option Nat :=
  match splitOnColon l with
  | [a, b] =>
    if fieldOk a && fieldOk b then some (digitsToNat a * 60 + digitsToNat b)
    else none
  | [a, b, c] =>
    if fieldOk a && fieldOk b && fieldOk c then
      some (digitsToNat a * 3600 + digitsToNat b * 60 + digitsToNat c)
    else none
  | _ => none

/-- One optional unit group `(?:(\d+)\s*u)?` of the compound-unit regex in
`parse_duration_str` (main.py line 208), matched at the front of `l`.
On success returns the digit value and the rest of the input; on failure
consumes nothing.  The regex groups are deterministic here: a group can
match only by consuming the maximal leading digit run, then whitespace,
then the unit letter, and skipping a matchable group can never lead to an
overall match the greedy parse misses. -/
def unitGroup (u : Char) (l : List Char) : Option Nat × List Char :=
  let ds := l.takeWhile isDigitChar
  let rest := l.dropWhile isDigitChar
  if ds.isEmpty then (none, l)
  else
    match rest.dropWhile isSpaceChar with
    | [] => (none, l)
    | c :: t => if c = u then (some (digitsToNat ds), t) else (none, l)

/-- The compound-unit branch of `parse_duration_str`: the anchored regex
`(?:(\d+)\s*h)?\s*(?:(\d+)\s*m)?\s*(?:(\d+)\s*s)?$` with
`any(m.groups())` required (at least one unit present). -/
def unitForm (l : List Char) : Option Nat :=
  let gh := unitGroup 'h' l
  let gm := unitGroup 'm' (gh.2.dropWhile isSpaceChar)
  let gs := unitGroup 's' (gm.2.dropWhile isSpaceChar)
  if gs.2.isEmpty && (gh.1.isSome || gm.1.isSome || gs.1.isSome) then
    some (gh.1.getD 0 * 3600 + gm.1.getD 0 * 60 + gs.1.getD 0)
  else none

/-- Body of `parse_duration_str` after normalization (main.py lines 199-217):
empty input is rejected, then the colon forms, the compound-unit form and
the bare-digits form are tried in order. -/
def parseCore (t : List Char) : Option Nat :=
  if t.isEmpty then none
  else
    match colonForm t with
    | some v => some v
    | none =>
      match unitForm t with
      | some v => some v
      | none =>
        if !t.isEmpty && t.all isDigitChar then some (digitsToNat t) else none

/-- Embedding of `parse_duration_str` (main.py lines 197-217): strip and
lowercase the input, then try the accepted forms. -/
def parse_duration_str (s : String) : Option Nat :=
  parseCore (pyLower (pyStrip s.data))

/-- Decimal digit list of a natural number, with explicit fuel so that the
recursion is structural (the fuel `n` always suffices, since a number has
at most `n` decimal digits for `n ≥ 1` and the fuel-0 arm is itself correct
for one-digit numbers). -/
def natDigitsAux : Nat → Nat → List Char
  | 0, n => [digitChar n]
  | fuel + 1, n =>
    if n < 10 then [digitChar n]
    else natDigitsAux fuel (n / 10) ++ [digitChar (n % 10)]

/-- Decimal digit list of a natural number (no padding). -/
def natDigits (n : Nat) : List Char := natDigitsAux n n

/-- Model of the f-string conversion `{n:02d}`: the decimal digits of `n`
zero-padded on the left to at least two characters. -/
def pad2 (n : Nat) : List Char :=
  let r := natDigits n
  if r.length < 2 then '0' :: r else r

/-- Character list produced by `fmt_time` (main.py lines 85-89):
`HH:MM:SS` when the hour component is nonzero, else `MM:SS`. -/
def fmtChars (sec : Nat) : List Char :=
  let h := sec / 3600
  let m := sec % 3600 / 60
  let s := sec % 60
  if h ≠ 0 then pad2 h ++ ':' :: (pad2 m ++ ':' :: pad2 s)
  else pad2 m ++ ':' :: pad2 s

/-- Embedding of `fmt_time` (main.py lines 85-89). -/
def fmt_time (sec : Nat) : String := String.mk (fmtChars sec)

/-- One timestamped transcript segment, as produced by the transcript
fetcher: `start` and `duration` are Python ints (`int(item.get(...))`),
`text` the raw fragment. -/
structure Segment where
  start : Int
  duration : Int
  text : String
deriving DecidableEq

/-- The chunk-collection loop of `slice_transcript_text` (main.py lines
143-149): for each segment `[s, s+d)`, if `s + d > start` and `s < end`
append the stripped text. -/
def collectChunks (transcript : List Segment) (start stop : Int) : List String :=
  match transcript with
  | [] => []
  | g :: rest =>
    if start < g.start + g.duration ∧ g.start < stop then
      pyStripStr g.text :: collectChunks rest start stop
    else collectChunks rest start stop

/-- Model of `" ".join(l)`. -/
def joinSpace : List String → String
  | [] => ""
  | [c] => c
  | c :: cs => c ++ " " ++ joinSpace cs

/-- The joined pre-truncation text of `slice_transcript_text` (main.py line
150): drop empty fragments, join with single spaces, strip the result. -/
def sliceRaw (transcript : List Segment) (start stop : Int) : String :=
  pyStripStr (joinSpace ((collectChunks transcript start stop).filter
    (fun c => decide (c ≠ ""))))

/-- Model of the Python prefix slice `s[:k]`, including the negative-index
case (`s[:-c]` keeps all but the last `c` characters, clamped at empty). -/
def pyTake (s : String) (k : Int) : String :=
  if 0 ≤ k then String.mk (s.data.take k.toNat)
  else String.mk (s.data.take (s.length - (-k).toNat))

/-- Embedding of `slice_transcript_text` (main.py lines 140-153).  A falsy
transcript (absent or empty) yields `""`; otherwise the overlapping
fragments are collected and joined, and a joined text longer than
`max_chars` is cut to `max_chars - 3` characters with `"..."` appended. -/
def slice_transcript_text (transcript : Option (List Segment))
    (start stop : Int) (max_chars : Int) : String :=
  match transcript with
  | none => ""
  | some t =>
    if t.isEmpty then ""
    else
      let text := sliceRaw t start stop
      if max_chars < (text.length : Int) then pyTake text (max_chars - 3) ++ "..."
      else text

/-- Per-user session record, with the fields and defaults of `ensure_user`
(main.py lines 180-194). -/
structure Session where
  video_id : Option String
  video_url : Option String
  title : Option String
  duration : Nat
  interval_sec : Nat
  chunk_sec : Nat
  current_start_sec : Nat
  transcript : Option (List Segment)
  active : Bool
  job_name : Option String
deriving DecidableEq

/-- The session record created by `ensure_user` for a new user. -/
def default_session : Session :=
  ⟨none, none, none, 0, 300, 90, 0, none, false, none⟩

/-- The repeating-timer job handle: `context.job` carries the target user id
in `job.data`. -/
structure Job where
  user_id : Nat
deriving DecidableEq

/-- A message sent to the user during a tick: either a plain corrective /
completion notice, or a flashcard for the window `[start, stop)` built from
the given transcript summary.  The concrete (Arabic) message texts and the
HTML card body are opaque here; the constants below stand for them. -/
inductive Emission where
  | notice (text : String)
  | card (start stop : Nat) (summary : String)
deriving DecidableEq

/-- Stands for the "session not active, use /startsession" notice text. -/
def sessionInactiveMsg : String := "session-not-active"

/-- Stands for the "add a video first with /add" notice text. -/
def addVideoMsg : String := "add-a-video-first"

/-- Stands for the "finished all segments of the video" completion text. -/
def sessionDoneMsg : String := "video-finished"

/-- In-memory effects of one `send_next_card` invocation: the (possibly
mutated) session, the messages sent, and whether `job.schedule_removal()`
was reached. -/
structure TickOutcome where
  session : Option Session
  emissions : List Emission
  jobRemoved : Bool
deriving DecidableEq

/-- Result of one `send_next_card` invocation: normal return, or an
uncaught Python exception (which aborts the rest of the handler); the
carried `TickOutcome` records the in-memory state at that point. -/
inductive TickRes where
  | ok (o : TickOutcome)
  | exn (err : String) (o : TickOutcome)
deriving DecidableEq

/-- Embedding of `save_db` (main.py lines 46-53): the `os.makedirs` call is
wrapped in try/except (its failure is swallowed and cannot abort anything),
but the `open`/`json.dump` write is NOT guarded, so a write failure raises
out of `save_db`. -/
def save_db (writeFails : Bool) : Except String Unit :=
  if writeFails then .error "OSError" else .ok ()

/-- Embedding of `send_next_card` (main.py lines 220-272), the scheduler
tick.  `job` is `context.job` (`none` when invoked from a callback-query
handler); `writeFails` tells whether the `save_db` flush raises; the
session argument is the state found for the user under the lock.
The first statement dereferences `job.data`, so `job = none` raises
`AttributeError` before anything else happens. -/
def send_next_card (job : Option Job) (writeFails : Bool)
    (session? : Option Session) : TickRes :=
  match job with
  | none => .exn "AttributeError" ⟨session?, [], false⟩
  | some _ =>
    match session? with
    | none => .ok ⟨none, [.notice sessionInactiveMsg], true⟩
    | some s =>
      if !s.active then .ok ⟨some s, [.notice sessionInactiveMsg], true⟩
      else
        let start := s.current_start_sec
        let e := min (start + s.chunk_sec) s.duration
        if s.video_id = none ∨ s.duration = 0 then
          .ok ⟨some s, [.notice addVideoMsg], true⟩
        else if s.duration ≤ start then
          let s1 := { s with active := false }
          match save_db writeFails with
          | .error err => .exn err ⟨some s1, [], false⟩
          | .ok _ => .ok ⟨some s1, [.notice sessionDoneMsg], true⟩
        else
          let summary := slice_transcript_text s.transcript (start : Int) (e : Int) 700
          let s1 := { s with current_start_sec := e }
          match save_db writeFails with
          | .error err => .exn err ⟨some s1, [.card start e summary], false⟩
          | .ok _ => .ok ⟨some s1, [.card start e summary], false⟩

/-- The "skip" branch of the `callbacks` handler (main.py lines 451-454):
it calls `send_next_card(context)` directly, but in a callback-query
context `context.job` is `None`. -/
def skip_callback (writeFails : Bool) (session? : Option Session) : TickRes :=
  send_next_card none writeFails session?

/-- Result of `startsession_cmd`: the mutated session, whether the command
succeeded, and whether a repeating timer was armed. -/
structure StartResult where
  session : Session
  started : Bool
  timerArmed : Bool
deriving DecidableEq

/-- Embedding of `startsession_cmd` (main.py lines 389-414): requires a
configured video, sets `active`, resets the cursor to 0 when it has reached
the video duration, cancels any timer of the same name and arms a new
repeating one. -/
def startsession_cmd (uid : String) (s : Session) : StartResult :=
  match s.video_id with
  | none => ⟨s, false, false⟩
  | some _ =>
    let s1 := { s with active := true }
    let s2 :=
      if s1.duration ≤ s1.current_start_sec then { s1 with current_start_sec := 0 }
      else s1
    ⟨{ s2 with job_name := some ("study_" ++ uid) }, true, true⟩

/-- Embedding of `setinterval_cmd` (main.py lines 357-370) on the joined
argument string: parse, reject falsy or `< 30` values before touching the
session, otherwise set `interval_sec`.  The `Bool` is `true` when the
command was accepted. -/
def setinterval_cmd (arg : String) (s : Session) : Session × Bool :=
  match parse_duration_str arg with
  | none => (s, false)
  | some secs =>
    if secs = 0 ∨ secs < 30 then (s, false)
    else ({ s with interval_sec := secs }, true)

/-- Embedding of `setchunk_cmd` (main.py lines 373-386): parse, reject
falsy, `< 30` or `> 600` values before touching the session, otherwise set
`chunk_sec`. -/
def setchunk_cmd (arg : String) (s : Session) : Session × Bool :=
  match parse_duration_str arg with
  | none => (s, false)
  | some secs =>
    if secs = 0 ∨ secs < 30 ∨ 600 < secs then (s, false)
    else ({ s with chunk_sec := secs }, true)

/-- A demonstration session: a 200-second video reviewed in 90-second
chunks, active, cursor at `c`, no transcript (the spec's worked example). -/
def demoAt (c : Nat) : Session :=
  ⟨some "vid", some "url", some "T", 200, 300, 90, c, none, true, none⟩

/-- An inactive variant of the demonstration session. -/
def demoInactive : Session := { demoAt 0 with active := false }

/-- The window end computed by each tick (main.py line 237):
`end = min(start + chunk, duration)`. -/
def windowEnd (s : Session) : Nat :=
  min (s.current_start_sec + s.chunk_sec) s.duration

/-- C1: whenever a tick emits a card, the card's window is
`[cursorSec, windowEnd)` with `windowEnd = min(cursorSec + chunkSec,
totalDurationSec)`, afterwards `cursorSec = windowEnd ≤ totalDurationSec`;
and on the worked example (`totalDurationSec = 200`, `chunkSec = 90`)
three ticks from cursor 0 emit the windows `[0,90)`, `[90,180)`,
`[180,200)`.  A card is emitted exactly when the session is active, a
video with nonzero duration is configured, and the cursor is still short
of the duration. -/
theorem tick_card_window :
    (∀ (j : Job) (s : Session), s.active = true → s.video_id ≠ none →
      s.duration ≠ 0 → s.current_start_sec < s.duration →
      send_next_card (some j) false (some s) =
        .ok ⟨some { s with current_start_sec := windowEnd s },
             [.card s.current_start_sec (windowEnd s)
                (slice_transcript_text s.transcript (s.current_start_sec : Int)
                  ((windowEnd s : Nat) : Int) 700)],
             false⟩
      ∧ windowEnd s ≤ s.duration)
    ∧ send_next_card (some ⟨1⟩) false (some (demoAt 0)) =
        .ok ⟨some (demoAt 90), [.card 0 90 ""], false⟩
    ∧ send_next_card (some ⟨1⟩) false (some (demoAt 90)) =
        .ok ⟨some (demoAt 180), [.card 90 180 ""], false⟩
    ∧ send_next_card (some ⟨1⟩) false (some (demoAt 180)) =
        .ok ⟨some (demoAt 200), [.card 180 200 ""], false⟩ := by
  refine ⟨?_, by decide, by decide, by decide⟩
  intro j s h1 h2 h3 h4
  have h5 : ¬ s.duration ≤ s.current_start_sec := by omega
  refine ⟨?_, Nat.min_le_right _ _⟩
  simp [send_next_card, save_db, windowEnd, h1, h2, h3, h5]

/-- Witness for the universally quantified part of `tick_card_window`,
instantiated on the demonstration session at cursor 0. -/
theorem tick_card_window_w : windowEnd (demoAt 0) ≤ (demoAt 0).duration :=
  (tick_card_window.1 ⟨1⟩ (demoAt 0) rfl (by decide) (by decide) (by decide)).2

/-- An active session whose configured video has duration 0: the YouTube
metadata fetch succeeded but its ISO duration did not parse
(`iso8601_duration_to_seconds` returns 0, e.g. for a live stream), `/add`
accepted it, and `startsession_cmd` armed the timer without a duration
check, so `cursorSec = totalDurationSec = 0`. -/
def demoZeroDuration : Session :=
  ⟨some "vid", some "url", some "T", 0, 300, 90, 0, none, true, none⟩

/-- C2 counterexample: on the reachable active session with
`totalDurationSec = 0`, the cursor has reached the duration, yet the next
tick takes the `duration == 0` branch (main.py line 238): it emits the
add-video corrective notice — not a completion notice — and leaves the
session unchanged, still active. -/
theorem zero_duration_tick_not_completion :
    demoZeroDuration.active = true
    ∧ demoZeroDuration.current_start_sec = demoZeroDuration.duration
    ∧ send_next_card (some ⟨1⟩) false (some demoZeroDuration) =
        .ok ⟨some demoZeroDuration, [.notice addVideoMsg], true⟩
    ∧ Emission.notice addVideoMsg ≠ Emission.notice sessionDoneMsg := by decide

/-- C2 amended: a tick on an active session whose configured video has
NONZERO duration and whose cursor has reached that duration deactivates
the session, cancels the timer, sends the completion notice and emits no
card; a subsequent `startsession` resets the cursor to 0 and reactivates.
(With duration 0 the tick instead emits the add-video notice and leaves
the session unchanged — see the counterexample above.)  Shown in general
and on the worked example at cursor 200. -/
theorem exhausted_tick_deactivates :
    (∀ (j : Job) (s : Session) (uid : String), s.active = true →
      s.video_id ≠ none → s.duration ≠ 0 → s.current_start_sec = s.duration →
      send_next_card (some j) false (some s) =
        .ok ⟨some { s with active := false }, [.notice sessionDoneMsg], true⟩
      ∧ (startsession_cmd uid { s with active := false }).session.current_start_sec = 0
      ∧ (startsession_cmd uid { s with active := false }).session.active = true)
    ∧ send_next_card (some ⟨1⟩) false (some (demoAt 200)) =
        .ok ⟨some { demoAt 200 with active := false }, [.notice sessionDoneMsg], true⟩ := by
  refine ⟨?_, by decide⟩
  intro j s uid h1 h2 h3 h4
  have h5 : s.duration ≤ s.current_start_sec := by omega
  obtain ⟨v, hv⟩ := Option.ne_none_iff_exists'.mp h2
  refine ⟨by simp [send_next_card, save_db, h1, h2, h3, h5], ?_, ?_⟩ <;>
    simp [startsession_cmd, hv, h5]

/-- Witness for the universally quantified part of
`exhausted_tick_deactivates`, instantiated at cursor 200. -/
theorem exhausted_tick_deactivates_w :
    (startsession_cmd "7" { demoAt 200 with active := false }).session.current_start_sec = 0 :=
  (exhausted_tick_deactivates.1 ⟨1⟩ (demoAt 200) "7" rfl (by decide) (by decide)
    (by decide)).2.1

/-- C5 counterexample: a tick on an inactive session is NOT silent — it
sends the "session not active" notice message (main.py line 228) before
cancelling the timer, so "no card or message emitted" fails at this
concrete input. -/
theorem inactive_tick_sends_notice :
    send_next_card (some ⟨1⟩) false (some demoInactive) =
      .ok ⟨some demoInactive, [.notice sessionInactiveMsg], true⟩
    ∧ [Emission.notice sessionInactiveMsg] ≠ ([] : List Emission) := by decide

/-- C5 amended: a timer-invoked tick that finds `active = false` emits no
card, leaves the session unchanged and cancels the timer, but it does send
the corrective "session not active" notice. -/
theorem inactive_tick_no_card :
    ∀ (j : Job) (w : Bool) (s : Session), s.active = false →
      send_next_card (some j) w (some s) =
        .ok ⟨some s, [.notice sessionInactiveMsg], true⟩ := by
  intro j w s h
  simp [send_next_card, h]

/-- Witness for `inactive_tick_no_card` on the inactive demonstration
session. -/
theorem inactive_tick_no_card_w :
    send_next_card (some ⟨1⟩) false (some demoInactive) =
      .ok ⟨some demoInactive, [.notice sessionInactiveMsg], true⟩ :=
  inactive_tick_no_card ⟨1⟩ false demoInactive rfl

/-- C6: the "skip" button handler calls `send_next_card(context)` with
`context.job = None` (a callback-query context has no job), so the first
statement `job.data` raises `AttributeError`: skip crashes with no state
change and no card, instead of behaving like one tick — which, on the same
state, emits a card and advances the cursor. -/
theorem skip_callback_crashes :
    skip_callback false (some (demoAt 0)) =
      .exn "AttributeError" ⟨some (demoAt 0), [], false⟩
    ∧ send_next_card (some ⟨1⟩) false (some (demoAt 0)) =
      .ok ⟨some (demoAt 90), [.card 0 90 ""], false⟩ := by decide

/-- C7: the `json.dump` write in `save_db` is not guarded by try/except, so
a persistence failure raises out of `send_next_card` and aborts the tick:
in the card branch the exception escapes after the card was sent and the
cursor advanced, and in the exhausted branch it suppresses the completion
notice and the timer cancellation (the session is still deactivated in
memory). -/
theorem save_failure_aborts_tick :
    send_next_card (some ⟨1⟩) true (some (demoAt 0)) =
      .exn "OSError" ⟨some (demoAt 90), [.card 0 90 ""], false⟩
    ∧ send_next_card (some ⟨1⟩) true (some (demoAt 200)) =
      .exn "OSError" ⟨some { demoAt 200 with active := false }, [], false⟩
    ∧ save_db true = .error "OSError" := ⟨by decide, by decide, rfl⟩

/-- C9: an argument that fails duration parsing, or parses to an
out-of-bounds value (`< 30` for the interval; outside `[30, 600]` for the
chunk), is rejected before any mutation: the session comes back exactly
unchanged and the command reports failure. -/
theorem config_reject_leaves_session_unchanged :
    ∀ (arg : String) (s : Session),
      ((parse_duration_str arg = none ∨
          (∃ v, parse_duration_str arg = some v ∧ v < 30)) →
        setinterval_cmd arg s = (s, false))
      ∧ ((parse_duration_str arg = none ∨
          (∃ v, parse_duration_str arg = some v ∧ (v < 30 ∨ 600 < v))) →
        setchunk_cmd arg s = (s, false)) := by
  intro arg s
  constructor
  · rintro (h | ⟨v, hv, hlt⟩)
    · simp [setinterval_cmd, h]
    · simp only [setinterval_cmd, hv]
      rw [if_pos (Or.inr hlt)]
  · rintro (h | ⟨v, hv, hlt⟩)
    · simp [setchunk_cmd, h]
    · simp only [setchunk_cmd, hv]
      rcases hlt with hlt | hlt
      · rw [if_pos (Or.inr (Or.inl hlt))]
      · rw [if_pos (Or.inr (Or.inr hlt))]

/-- Witness for `config_reject_leaves_session_unchanged`: an unparseable
interval argument and an out-of-range chunk argument both leave the
default session unchanged. -/
theorem config_reject_leaves_session_unchanged_w :
    setinterval_cmd "abc" default_session = (default_session, false)
    ∧ setchunk_cmd "20m" default_session = (default_session, false) :=
  ⟨(config_reject_leaves_session_unchanged "abc" default_session).1
      (Or.inl (by decide)),
    (config_reject_leaves_session_unchanged "20m" default_session).2
      (Or.inr ⟨1200, by decide, Or.inr (by decide)⟩)⟩

/-- C4: the chunk list collected by `slice_transcript_text` consists of
exactly the stripped texts of the segments `[s, s+d)` with `s + d > start`
and `s < end`, in order; equivalently, a string is collected iff it is the
stripped text of some segment strictly partially overlapping the range, so
segments merely touching a boundary (`s + d = start` or `s = end`)
contribute nothing. -/
theorem slice_overlap_characterization :
    ∀ (t : List Segment) (a b : Int),
      collectChunks t a b =
        (t.filter (fun g => decide (a < g.start + g.duration ∧ g.start < b))).map
          (fun g => pyStripStr g.text)
      ∧ (∀ c : String, c ∈ collectChunks t a b ↔
          ∃ g, g ∈ t ∧ (a < g.start + g.duration ∧ g.start < b) ∧
            pyStripStr g.text = c) := by
  intro t a b
  have h1 : collectChunks t a b =
      (t.filter (fun g => decide (a < g.start + g.duration ∧ g.start < b))).map
        (fun g => pyStripStr g.text) := by
    induction t with
    | nil => rfl
    | cons g rest ih =>
      by_cases hg : a < g.start + g.duration ∧ g.start < b
      · simp [collectChunks, hg, List.filter_cons, ih]
      · simp [collectChunks, hg, List.filter_cons, ih]
  refine ⟨h1, ?_⟩
  intro c
  rw [h1]
  simp only [List.mem_map, List.mem_filter, decide_eq_true_eq]
  tauto

/-- Witness for `slice_overlap_characterization`: a segment ending exactly
at the range start is excluded. -/
theorem slice_overlap_characterization_w :
    "hello" ∉ collectChunks [⟨0, 10, "hello"⟩] 10 20 := by
  intro hmem
  have h := ((slice_overlap_characterization [⟨0, 10, "hello"⟩] 10 20).2 "hello").mp hmem
  rcases h with ⟨g, hg, hov, hc⟩
  simp only [List.mem_singleton] at hg
  subst hg
  simp at hov

/-- Pythonic prefix length: for a nonnegative requested length `k`,
`s[:k]` has `min k (len s)` characters. -/
theorem pyTake_length (s : String) (k : Int) (h : 0 ≤ k) :
    (pyTake s k).length = min k.toNat s.length := by
  unfold pyTake
  rw [if_pos h]
  show (s.data.take k.toNat).length = _
  rw [List.length_take]
  rfl

/-- C8: with the ellipsis-capable bound `max_chars ≥ 3` (the source always
uses 700), every output of `slice_transcript_text` has at most `max_chars`
characters, and whenever the joined text is longer than `max_chars` the
output is the text cut to `max_chars - 3` characters plus `"..."`, of
length exactly `max_chars`. -/
theorem slice_truncation_bound :
    ∀ (tr : Option (List Segment)) (a b M : Int), 3 ≤ M →
      ((slice_transcript_text tr a b M).length : Int) ≤ M
      ∧ ∀ t, tr = some t → t.isEmpty = false →
          M < ((sliceRaw t a b).length : Int) →
          slice_transcript_text tr a b M = pyTake (sliceRaw t a b) (M - 3) ++ "..."
          ∧ ((slice_transcript_text tr a b M).length : Int) = M := by
  intro tr a b M hM
  match tr with
  | none =>
    refine ⟨by simp [slice_transcript_text]; omega, ?_⟩
    intro t h
    exact absurd h (by simp)
  | some t =>
    by_cases hT : t.isEmpty
    · refine ⟨by simp [slice_transcript_text, hT]; omega, ?_⟩
      intro t' ht' hne
      injection ht' with h
      subst h
      exact absurd hT (by simp [hne])
    · by_cases hlen : M < ((sliceRaw t a b).length : Int)
      · have key : slice_transcript_text (some t) a b M =
            pyTake (sliceRaw t a b) (M - 3) ++ "..." := by
          simp [slice_transcript_text, hT, hlen]
        have hbound : (((pyTake (sliceRaw t a b) (M - 3) ++ "...").length : Nat) : Int) = M := by
          rw [String.length_append, pyTake_length _ _ (by omega)]
          have h3 : ("..." : String).length = 3 := rfl
          have hmin : min (M - 3).toNat (sliceRaw t a b).length = (M - 3).toNat := by
            apply min_eq_left
            omega
          rw [h3, hmin]
          omega
        refine ⟨by rw [key]; exact le_of_eq hbound, ?_⟩
        intro t' ht' hne hlen'
        injection ht' with h
        subst h
        exact ⟨key, by rw [key, hbound]⟩
      · have key : slice_transcript_text (some t) a b M = sliceRaw t a b := by
          simp [slice_transcript_text, hT, hlen]
        refine ⟨by rw [key]; omega, ?_⟩
        intro t' ht' hne hlen'
        injection ht' with h
        subst h
        exact absurd hlen' hlen

/-- Witness for `slice_truncation_bound`: a ten-character fragment sliced
with `max_chars = 5` comes back as exactly five characters ending in the
ellipsis marker. -/
theorem slice_truncation_bound_w :
    ((slice_transcript_text (some [⟨0, 10, "abcdefghij"⟩]) 0 10 5).length : Int) = 5 :=
  ((slice_truncation_bound (some [⟨0, 10, "abcdefghij"⟩]) 0 10 5 (by decide)).2
    [⟨0, 10, "abcdefghij"⟩] rfl (by decide) (by decide)).2

/-- Shape of the colon-separated forms accepted per spec section 4.1:
splitting on `":"` yields two fields (`M:SS`) or three fields (`H:MM:SS`),
each a group of one or two digits. -/
def isColonShape (t : List Char) : Bool :=
  match splitOnColon t with
  | [a, b] => fieldOk a && fieldOk b
  | [a, b, c] => fieldOk a && fieldOk b && fieldOk c
  | _ => false

/-- Literal second count of a colon-shaped input per spec section 4.1. -/
def colonSeconds (t : List Char) : Nat :=
  match splitOnColon t with
  | [m, s] => digitsToNat m * 60 + digitsToNat s
  | [h, m, s] => digitsToNat h * 3600 + digitsToNat m * 60 + digitsToNat s
  | _ => 0

/-- DurationParser contract as worded in spec section 4.1, for comparison
with the embedded `parse_duration_str`: normalize whitespace and case,
then try in order the colon forms, the compound `h`/`m`/`s` unit form with
at least one unit present, and a bare digit string; anything else fails
(`none`, the model of `InvalidFormat`). -/
def specDurationParse (s : String) : Option Nat :=
  let t := pyLower (pyStrip s.data)
  if isColonShape t then some (colonSeconds t)
  else if (unitForm t).isSome then unitForm t
  else if !t.isEmpty && t.all isDigitChar then some (digitsToNat t)
  else none

/-- The colon branch of the code agrees with the spec's shape/value
description of the colon forms. -/
theorem colonForm_eq_shape (t : List Char) :
    colonForm t = if isColonShape t then some (colonSeconds t) else none := by
  unfold colonForm isColonShape colonSeconds
  cases h : splitOnColon t with
  | nil => simp
  | cons a l =>
    cases l with
    | nil => simp
    | cons b l2 =>
      cases l2 with
      | nil =>
        by_cases hab : fieldOk a && fieldOk b
        · simp [hab]
        · simp [hab]
      | cons c l3 =>
        cases l3 with
        | nil =>
          by_cases habc : fieldOk a && fieldOk b && fieldOk c
          · simp [habc]
          · simp [habc]
        | cons d l4 => simp

/-- C3: `parse_duration_str` computes exactly the function worded in the
spec — the exact second count for the normalized colon forms (1-2 digits
per field), the compound unit form with at least one unit, and bare digit
strings, failing (`none`) on every other string — together with the four
worked examples. -/
theorem parse_duration_matches_spec :
    (∀ s : String, parse_duration_str s = specDurationParse s)
    ∧ parse_duration_str "1h30m" = some 5400
    ∧ parse_duration_str "5m" = some 300
    ∧ parse_duration_str "00:05:00" = some 300
    ∧ parse_duration_str "abc" = none := by
  refine ⟨?_, by decide, by decide, by decide, by decide⟩
  intro s
  unfold parse_duration_str specDurationParse parseCore
  set t := pyLower (pyStrip s.data) with ht
  by_cases hE : t.isEmpty
  · have ht0 : t = [] := by simpa using hE
    rw [ht0]
    decide
  · rw [colonForm_eq_shape]
    by_cases hC : isColonShape t
    · simp [hE, hC]
    · simp only [hC, if_false, Bool.false_eq_true]
      cases hU : unitForm t with
      | none => simp [hE, hU]
      | some v => simp [hE, hU]

/-- Code point of a digit character. -/
theorem digitChar_toNat : ∀ d, d < 10 → (digitChar d).toNat = 48 + d := by decide

/-- Digit characters satisfy the digit class. -/
theorem isDigitChar_digitChar : ∀ d, d < 10 → isDigitChar (digitChar d) = true := by
  decide

/-- A digit character is below the uppercase range and is not whitespace. -/
theorem isDigitChar_props (c : Char) (h : isDigitChar c = true) :
    c.toNat < 65 ∧ isSpaceChar c = false := by
  unfold isDigitChar at h
  rw [decide_eq_true_iff] at h
  unfold isSpaceChar
  exact ⟨by omega, by rw [decide_eq_false_iff_not]; omega⟩

/-- A digit character is not a colon. -/
theorem isDigitChar_ne_colon (c : Char) (h : isDigitChar c = true) : c ≠ ':' := by
  intro hc
  subst hc
  exact absurd h (by decide)

/-- With any fuel, a one-digit number prints as its single digit. -/
theorem natDigitsAux_small : ∀ (fuel n : Nat), n < 10 →
    natDigitsAux fuel n = [digitChar n] := by
  intro fuel n h
  cases fuel with
  | zero => rfl
  | succ f => simp [natDigitsAux, h]

/-- A two-digit number prints as its two digits. -/
theorem natDigits_two (n : Nat) (h1 : 10 ≤ n) (h2 : n < 100) :
    natDigits n = [digitChar (n / 10), digitChar (n % 10)] := by
  obtain ⟨k, rfl⟩ : ∃ k, n = k + 1 := ⟨n - 1, by omega⟩
  show natDigitsAux (k + 1) (k + 1) = _
  rw [natDigitsAux, if_neg (by omega)]
  rw [natDigitsAux_small k ((k + 1) / 10) (by omega)]
  rfl

/-- For values below 100 (all `fmt_time` components in range), `pad2`
yields exactly the two digit characters. -/
theorem pad2_eq (n : Nat) (h : n < 100) :
    pad2 n = [digitChar (n / 10), digitChar (n % 10)] := by
  by_cases h10 : n < 10
  · have hd : natDigits n = [digitChar n] := natDigitsAux_small n n h10
    have e1 : n / 10 = 0 := by omega
    have e2 : n % 10 = n := by omega
    rw [e1, e2]
    have h0 : digitChar 0 = '0' := by decide
    rw [h0]
    simp only [pad2, hd]
    simp
  · have hd := natDigits_two n (by omega) h
    simp only [pad2, hd]
    simp

/-- Parsing the two padded digits recovers the value. -/
theorem digitsToNat_pad2 (n : Nat) (h : n < 100) : digitsToNat (pad2 n) = n := by
  rw [pad2_eq n h]
  unfold digitsToNat
  simp only [List.foldl]
  rw [digitChar_toNat _ (by omega), digitChar_toNat _ (by omega)]
  omega

/-- A padded component is an acceptable 1-2 digit colon field. -/
theorem fieldOk_pad2 (n : Nat) (h : n < 100) : fieldOk (pad2 n) = true := by
  rw [pad2_eq n h]
  unfold fieldOk
  simp [isDigitChar_digitChar _ (show n / 10 < 10 by omega),
        isDigitChar_digitChar _ (show n % 10 < 10 by omega)]

/-- Characters of a padded component are digits. -/
theorem pad2_mem_digits (v : Nat) (h : v < 100) :
    ∀ c ∈ pad2 v, isDigitChar c = true := by
  rw [pad2_eq v h]
  intro c hc
  rcases List.mem_cons.mp hc with rfl | hc2
  · exact isDigitChar_digitChar _ (by omega)
  · rcases List.mem_singleton.mp hc2 with rfl
    exact isDigitChar_digitChar _ (by omega)

/-- Every character `fmt_time` emits (for inputs under 100 hours) is a
digit or a colon. -/
theorem fmtChars_mem (n : Nat) (hn : n < 360000) :
    ∀ c ∈ fmtChars n, isDigitChar c = true ∨ c = ':' := by
  intro c hc
  simp only [fmtChars] at hc
  have hm : n % 3600 / 60 < 100 := by omega
  have hs : n % 60 < 100 := by omega
  have hh : n / 3600 < 100 := by omega
  split at hc
  · rcases List.mem_append.mp hc with h1 | h1
    · exact Or.inl (pad2_mem_digits _ hh c h1)
    · rcases List.mem_cons.mp h1 with rfl | h2
      · exact Or.inr rfl
      · rcases List.mem_append.mp h2 with h3 | h3
        · exact Or.inl (pad2_mem_digits _ hm c h3)
        · rcases List.mem_cons.mp h3 with rfl | h4
          · exact Or.inr rfl
          · exact Or.inl (pad2_mem_digits _ hs c h4)
  · rcases List.mem_append.mp hc with h1 | h1
    · exact Or.inl (pad2_mem_digits _ hm c h1)
    · rcases List.mem_cons.mp h1 with rfl | h2
      · exact Or.inr rfl
      · exact Or.inl (pad2_mem_digits _ hs c h2)

/-- `dropWhile` is the identity on a list on which the predicate never
holds. -/
theorem dropWhile_of_all_neg {α : Type} (p : α → Bool) (l : List α)
    (h : ∀ c ∈ l, p c = false) : l.dropWhile p = l := by
  cases l with
  | nil => rfl
  | cons a t =>
    rw [List.dropWhile_cons_of_neg]
    simp [h a (List.mem_cons_self a t)]

/-- `str.strip` is the identity on a whitespace-free list. -/
theorem pyStrip_of_no_space (l : List Char)
    (h : ∀ c ∈ l, isSpaceChar c = false) : pyStrip l = l := by
  unfold pyStrip
  rw [dropWhile_of_all_neg _ _ h,
    dropWhile_of_all_neg _ _ (fun c hc => h c (List.mem_reverse.mp hc)),
    List.reverse_reverse]

/-- `str.lower` is the identity below the uppercase range. -/
theorem pyLower_of_lt65 (l : List Char) (h : ∀ c ∈ l, c.toNat < 65) :
    pyLower l = l := by
  unfold pyLower
  induction l with
  | nil => rfl
  | cons a t ih =>
    simp only [List.map_cons]
    rw [ih (fun c hc => h c (List.mem_cons_of_mem a hc))]
    have ha : pyLowerChar a = a := by
      unfold pyLowerChar
      rw [if_neg]
      have := h a (List.mem_cons_self a t)
      omega
    rw [ha]

/-- Unfolding equation of `splitOnColon` at a cons cell. -/
theorem splitOnColon_cons (c : Char) (t : List Char) :
    splitOnColon (c :: t) =
      if c = ':' then [] :: splitOnColon t else consHead c (splitOnColon t) := by
  simp [splitOnColon]

/-- Unfolding equation of `consHead` at a cons cell. -/
theorem consHead_cons (c : Char) (p : List Char) (ps : List (List Char)) :
    consHead c (p :: ps) = (c :: p) :: ps := rfl

/-- Splitting a colon-free list on colons yields the single whole part. -/
theorem splitOnColon_no_colon (l : List Char) (h : ∀ c ∈ l, c ≠ ':') :
    splitOnColon l = [l] := by
  induction l with
  | nil => rfl
  | cons a t ih =>
    rw [splitOnColon_cons, if_neg (h a (List.mem_cons_self a t)),
      ih (fun c hc => h c (List.mem_cons_of_mem a hc)), consHead_cons]

/-- Splitting peels off one colon-free part before a colon. -/
theorem splitOnColon_append (a rest : List Char) (h : ∀ c ∈ a, c ≠ ':') :
    splitOnColon (a ++ ':' :: rest) = a :: splitOnColon rest := by
  induction a with
  | nil =>
    simp only [List.nil_append, splitOnColon_cons, if_pos rfl, if_true]
  | cons x t ih =>
    simp only [List.cons_append]
    rw [splitOnColon_cons, if_neg (h x (List.mem_cons_self x t)),
      ih (fun c hc => h c (List.mem_cons_of_mem x hc)), consHead_cons]

/-- Padded components contain no colon. -/
theorem pad2_no_colon (v : Nat) (h : v < 100) : ∀ c ∈ pad2 v, c ≠ ':' :=
  fun c hc => isDigitChar_ne_colon c (pad2_mem_digits v h c hc)

/-- The colon branch accepts a two-field padded time and returns its
literal value. -/
theorem colonForm_two_pad (m s : Nat) (hm : m < 100) (hs : s < 100) :
    colonForm (pad2 m ++ ':' :: pad2 s) = some (m * 60 + s) := by
  unfold colonForm
  rw [splitOnColon_append _ _ (pad2_no_colon m hm),
    splitOnColon_no_colon _ (pad2_no_colon s hs)]
  simp [fieldOk_pad2 m hm, fieldOk_pad2 s hs,
    digitsToNat_pad2 m hm, digitsToNat_pad2 s hs]

/-- The colon branch accepts a three-field padded time and returns its
literal value. -/
theorem colonForm_three_pad (h m s : Nat) (hh : h < 100) (hm : m < 100)
    (hs : s < 100) :
    colonForm (pad2 h ++ ':' :: (pad2 m ++ ':' :: pad2 s)) =
      some (h * 3600 + m * 60 + s) := by
  unfold colonForm
  rw [splitOnColon_append _ _ (pad2_no_colon h hh),
    splitOnColon_append _ _ (pad2_no_colon m hm),
    splitOnColon_no_colon _ (pad2_no_colon s hs)]
  simp [fieldOk_pad2 h hh, fieldOk_pad2 m hm, fieldOk_pad2 s hs,
    digitsToNat_pad2 h hh, digitsToNat_pad2 m hm, digitsToNat_pad2 s hs]

/-- C10: for every duration under 100 hours, parsing the formatted time
string round-trips: `fmt_time` emits `MM:SS` below one hour and `HH:MM:SS`
otherwise (fields zero-padded to two digits; the hour field stays at two
digits below 100 hours), and both shapes are accepted by the parser's
colon forms with the original value. -/
theorem fmt_parse_roundtrip :
    ∀ n : Nat, n < 360000 → parse_duration_str (fmt_time n) = some n := by
  intro n hn
  have hnosp : ∀ c ∈ fmtChars n, isSpaceChar c = false := by
    intro c hc
    rcases fmtChars_mem n hn c hc with h | rfl
    · exact (isDigitChar_props c h).2
    · decide
  have hlt : ∀ c ∈ fmtChars n, c.toNat < 65 := by
    intro c hc
    rcases fmtChars_mem n hn c hc with h | rfl
    · exact (isDigitChar_props c h).1
    · decide
  show parseCore (pyLower (pyStrip (String.mk (fmtChars n)).data)) = some n
  have hdata : (String.mk (fmtChars n)).data = fmtChars n := rfl
  rw [hdata, pyStrip_of_no_space _ hnosp, pyLower_of_lt65 _ hlt]
  have hm : n % 3600 / 60 < 100 := by omega
  have hs : n % 60 < 100 := by omega
  by_cases hh : n / 3600 = 0
  · have hfmt : fmtChars n = pad2 (n % 3600 / 60) ++ ':' :: pad2 (n % 60) := by
      simp only [fmtChars]
      rw [if_neg (not_not_intro hh)]
    rw [hfmt]
    unfold parseCore
    rw [if_neg (by simp)]
    rw [colonForm_two_pad _ _ hm hs]
    have : n % 3600 / 60 * 60 + n % 60 = n := by omega
    rw [this]
  · have hhlt : n / 3600 < 100 := by omega
    have hfmt : fmtChars n =
        pad2 (n / 3600) ++ ':' :: (pad2 (n % 3600 / 60) ++ ':' :: pad2 (n % 60)) := by
      simp only [fmtChars]
      rw [if_pos hh]
    rw [hfmt]
    unfold parseCore
    rw [if_neg (by simp)]
    rw [colonForm_three_pad _ _ _ hhlt hm hs]
    have : n / 3600 * 3600 + n % 3600 / 60 * 60 + n % 60 = n := by omega
    rw [this]

/-- Witness for `fmt_parse_roundtrip` at 90 minutes. -/
theorem fmt_parse_roundtrip_w : parse_duration_str (fmt_time 5400) = some 5400 :=
  fmt_parse_roundtrip 5400 (by decide)

